import Mathlib

set_option linter.unusedVariables false

/-!
Shallow embedding of the errory typed-error construction library
(`src/index.ts`, export `buildError`) together with its external
collaborators as specified in the spec:

* stack-trace parsing (`error-stack-parser`) is consumed as an ordered list
  of `StackFrame` records handed to the factory;
* printf-style interpolation (`sprintf-js` / `vsprintf`) is modelled as a
  best-effort pure function (the claims only exercise the `%s` directive,
  other directives are left verbatim);
* terminal styling (`ansi-colors` / `c.green`) is modelled as the identity
  string decoration, which the spec allows ("core behavior must be correct
  whether or not this collaborator adds visible styling");
* `JSON.stringify` / `JSON.parse` are modelled by an executable serializer
  and recursive-descent parser over a JSON value type (numbers restricted
  to integers, which covers every number this module ever serializes).

JavaScript-specific behaviour that the source relies on is modelled
explicitly: string truthiness (`""` is falsy), object truthiness (every
object, `{}` included, is truthy), `undefined`-valued properties being
dropped by `JSON.stringify`, and `instanceof Error` dispatch.
-/

/-- Output record of the stack-trace collaborator, per spec section 6:
an ordered sequence of file/line/column records.  All of the fields are
optional in the collaborator's output type. -/
structure StackFrame where
  fileName : Option String
  lineNumber : Option Nat
  columnNumber : Option Nat
deriving DecidableEq, Repr

/-- A plain JavaScript error value as the module observes it: the code only
ever reads `.message`, `.toString()` and the `__errory` marker property of a
wrapped error, and `instanceof Error` is dispatch information carried by the
argument model below. -/
structure ErrLike where
  message : String
  toStr : String
  erroryMark : Bool
deriving DecidableEq, Repr

/-- A positional argument handed to the factory (`any[]` in the source).
Only the cases the module can distinguish are modelled: an error value
(`instanceof Error`) versus primitive values with their `String(x)` form. -/
inductive JSVal where
  | str : String → JSVal
  | num : Int → JSVal
  | boolean : Bool → JSVal
  | err : ErrLike → JSVal
deriving DecidableEq, Repr

/-- JavaScript `String(x)` on the argument values above. -/
def jsValToString : JSVal → String
  | .str s => s
  | .num n => toString n
  | .boolean b => if b then "true" else "false"
  | .err e => e.toStr

/-- Context value of a tagged instance: the schema admits only the three
primitive kinds `string`, `number`, `boolean`. -/
inductive CtxVal where
  | cstr : String → CtxVal
  | cnum : Int → CtxVal
  | cbool : Bool → CtxVal
deriving DecidableEq, Repr

/-- A context payload: a key/value mapping, modelled as an association list
in property insertion order. -/
abbrev Ctx : Type := List (String × CtxVal)

/-- Declared kind of a context field (the `ContextValueType` union). -/
inductive ContextValueType where
  | string | number | boolean
deriving DecidableEq, Repr

/-- `ContextShape`: mapping from field name to declared value kind. -/
abbrev ContextShape : Type := List (String × ContextValueType)

/-- `ErrorTypeConfig` as a caller supplies it.  The `context` property is
optional at the JavaScript level (`Object.assign` with the default config
fills it in), hence the `Option`. -/
structure ErrorTypeConfig where
  context : Option ContextShape
deriving DecidableEq

/-- `ErrorTypesDefinition`: caller-supplied mapping from category name to
config, in declaration order (JavaScript `for..in` iterates string keys in
insertion order). -/
abbrev ErrorTypesDefinition : Type := List (String × ErrorTypeConfig)

/-- Resolved `Opts` record of rendering options. -/
structure Opts where
  locationInMessage : Bool
  locationAsRelativePath : Bool
  typeInMessage : Bool
  typePreceedingChars : String
  wrappedErrorInMessage : Bool
deriving DecidableEq, Repr

/-- `Options = Partial<Opts>`: every field optional. -/
structure Options where
  locationInMessage : Option Bool := none
  locationAsRelativePath : Option Bool := none
  typeInMessage : Option Bool := none
  typePreceedingChars : Option String := none
  wrappedErrorInMessage : Option Bool := none

/-- The option defaults installed by `buildError` before `setInstanceOptions`
runs (`instanceOptions` initializer in the source). -/
def defaultInstanceOptions : Opts :=
  { locationInMessage := false
    locationAsRelativePath := false
    typeInMessage := false
    typePreceedingChars := "--"
    wrappedErrorInMessage := true }

/-- `setInstanceOptions` / `Object.assign(instanceOptions, options)`:
caller-present fields overwrite the defaults. -/
def setInstanceOptions (base : Opts) (o : Options) : Opts :=
  { locationInMessage := o.locationInMessage.getD base.locationInMessage
    locationAsRelativePath := o.locationAsRelativePath.getD base.locationAsRelativePath
    typeInMessage := o.typeInMessage.getD base.typeInMessage
    typePreceedingChars := o.typePreceedingChars.getD base.typePreceedingChars
    wrappedErrorInMessage := o.wrappedErrorInMessage.getD base.wrappedErrorInMessage }

/-- `setupErrorTypes`: each caller entry is merged over the default config
`{ context: {} }` with `Object.assign`, so a missing `context` property
becomes the empty shape; the caller's key set is kept as is. -/
def setupErrorTypes (errorTypes : ErrorTypesDefinition) : List (String × ContextShape) :=
  errorTypes.map (fun p => (p.1, p.2.context.getD []))

/-- The state a `buildError` call closes over: the configured error types
and the resolved instance options. -/
structure Registry where
  types : List (String × ContextShape)
  opts : Opts

/-- `buildError(errorTypes, opts)`. -/
def buildError (errorTypes : ErrorTypesDefinition) (opts : Options) : Registry :=
  { types := setupErrorTypes errorTypes
    opts := setInstanceOptions defaultInstanceOptions opts }

/-- JavaScript truthiness of a `string | undefined` value: `undefined` and
the empty string are falsy. -/
def truthyOpt : Option String → Bool
  | none => false
  | some s => !(s == "")

/-- Styling collaborator `c.green`, modelled as the identity decoration
(spec section 6 requires correctness with or without visible styling). -/
def green (s : String) : String := s

/-- List-level check that `needle` occurs at the start of `hay`. -/
def listStartsWith : List Char → List Char → Bool
  | _, [] => true
  | [], _ :: _ => false
  | a :: as, b :: bs => a == b && listStartsWith as bs

/-- List-level substring occurrence check. -/
def listHasSub : List Char → List Char → Bool
  | [], sub => sub.isEmpty
  | h :: t, sub => listStartsWith (h :: t) sub || listHasSub t sub

/-- JavaScript `String.prototype.includes`. -/
def jsIncludes (s sub : String) : Bool := listHasSub s.data sub.data

/-- `genTypeTag`: the rendered tag substring searched for in templates. -/
def genTypeTag (preceedingChars : String) (t : String) : String :=
  preceedingChars ++ t

/-- The auto-detection loop at the top of `errorFactory`: iterate all
configured type names in declaration order and remember a name whenever the
template contains its rendered tag; because the loop never breaks, the last
matching name survives. -/
def findTypeInMessage (types : List String) (preceedingChars : String)
    (message : String) : Option String :=
  types.foldl
    (fun acc errType =>
      if jsIncludes message (genTypeTag preceedingChars errType) then some errType else acc)
    none

/-- JavaScript's interpolation of possibly-undefined strings:
`undefined` renders as `"undefined"`. -/
def jsShowOptStr : Option String → String
  | none => "undefined"
  | some s => s

/-- JavaScript interpolation of a possibly-undefined number. -/
def jsShowOptNat : Option Nat → String
  | none => "undefined"
  | some n => toString n

/-- JavaScript `String.prototype.substring`: both indices are clamped to
`[0, length]` and swapped when out of order. -/
def jsSubstring (s : String) (a b : Nat) : String :=
  let n := s.data.length
  let a' := min a n
  let b' := min b n
  let lo := min a' b'
  let hi := max a' b'
  ⟨(s.data.drop lo).take (hi - lo)⟩

/-- `genLocationErrorStr`.  The source reads `stack.fileName` /
`stack.lineNumber` / `stack.columnNumber` of the frame it is handed; when
`print` is set and no frame exists (the JavaScript code would dereference
`undefined`) the result is `none`, modelling the thrown `TypeError`. -/
def genLocationErrorStr (print : Bool) (frames : List StackFrame)
    (relative : Bool) (cwd : String) : Option String :=
  if !print then some ""
  else
    match frames.head? with
    | none => none
    | some stack =>
      if relative then
        let relativeFileName :=
          match stack.fileName with
          | none => "undefined"
          | some fn => jsSubstring fn (cwd.length + 1) fn.data.length
        some (green ("  (" ++ relativeFileName ++ ":" ++ jsShowOptNat stack.lineNumber ++
          ":" ++ jsShowOptNat stack.columnNumber ++ ")"))
      else
        some (green ("  (" ++ jsShowOptStr stack.fileName ++ ":" ++
          jsShowOptNat stack.lineNumber ++ ":" ++ jsShowOptNat stack.columnNumber ++ ")"))

/-- `genTypeStr`: the category tag fragment of a rendered message; empty
when printing is off or the type is falsy. -/
def genTypeStr (print : Bool) (preceedingChars : String) (t : Option String) : String :=
  if !print || !truthyOpt t then ""
  else "  " ++ green (preceedingChars ++ t.getD "")

/-- Best-effort printf interpolation (the `vsprintf` collaborator).  The
claims of this module only exercise the `%s` directive; `%%` renders a
literal percent and any other directive is left verbatim. -/
def vsprintfAux : List Char → List JSVal → List Char
  | [], _ => []
  | '%' :: 's' :: rest, a :: as => (jsValToString a).data ++ vsprintfAux rest as
  | '%' :: '%' :: rest, as => '%' :: vsprintfAux rest as
  | c :: rest, as => c :: vsprintfAux rest as

/-- `genMessageStr`: `vsprintf(fMsg, args)`. -/
def genMessageStr (fMsg : String) (args : List JSVal) : String :=
  ⟨vsprintfAux fMsg.data args⟩

/-- Four spaces of indentation per nesting level (the `indentStr` loop). -/
def indentStr : Nat → String
  | 0 => ""
  | n + 1 => "    " ++ indentStr n

/-- The U+2B91 arrow used for nested errory causes. -/
def erroryArrow : String := String.singleton (Char.ofNat 0x2B91)

/-- `genWrappedErrorStr`: no cause renders nothing; an errory cause renders
as an indented arrow-prefixed new line; a plain cause renders as a
colon-separated suffix. -/
def genWrappedErrorStr (error : Option ErrLike) (indent : Nat) : String :=
  match error with
  | none => ""
  | some e =>
    if e.erroryMark then
      "\n" ++ indentStr indent ++ green (" " ++ erroryArrow) ++ "   " ++ e.toStr
    else ": " ++ e.toStr

/-- `genMessage`: the fixed-order concatenation of formatted template,
category tag fragment, location fragment and wrapped-cause fragment.
Returns `none` exactly when the location fragment would dereference a
missing first stack frame. -/
def genMessage (o : Opts) (cwd template : String) (args : List JSVal)
    (t : Option String) (typeIsInMessageString : Bool)
    (stackFrames : List StackFrame) (wrappedError : Option ErrLike)
    (indent : Nat) : Option String :=
  match genLocationErrorStr o.locationInMessage stackFrames o.locationAsRelativePath cwd with
  | none => none
  | some loc =>
    some (genMessageStr template args ++
      genTypeStr (!typeIsInMessageString && o.typeInMessage) o.typePreceedingChars t ++
      loc ++
      (if o.wrappedErrorInMessage then genWrappedErrorStr wrappedError indent else ""))

/-- The U+1F6D1 stop sign prepended to rebuilt stacks. -/
def stopSign : String := String.singleton (Char.ofNat 0x1F6D1)

/-- `rebuildStack`: split the current stack text on newlines, replace the
first line with the stop sign and the current rendered message, and drop
the two lines after it (the internal construction frames). -/
def rebuildStack (currentStack renderedMessage : String) : String :=
  let errorStacks := currentStack.splitOn "\n"
  let firstLine := green stopSign ++ " Error: " ++ renderedMessage
  String.intercalate "\n" (firstLine :: errorStacks.drop 3)

/-- The `__errory__`-prefixed internal properties of one errory instance,
plus the closure state (`message` template and spliced `args`) that the
re-rendering code reads. -/
structure Errory where
  name : String
  message : String
  stack : String
  context : Option Ctx
  type : Option String
  typeIsInMessageString : Bool
  stackFrames : List StackFrame
  args : List JSVal
  wrappedError : Option ErrLike
  msgTemplate : String
deriving DecidableEq, Repr

/-- The trailing-cause extraction: when the argument list is non-empty and
its last element is an error value, splice it off and return it. -/
def spliceTrailingError (args : List JSVal) : List JSVal × Option ErrLike :=
  match args.getLast? with
  | some (.err e) => (args.dropLast, some e)
  | _ => (args, none)

/-- `errorFactory(message, args)`: auto-detect a category tag in the raw
template, capture and trim the parsed stack frames, extract a trailing
cause, render the initial message, and rebuild the displayed stack.
`frames` is the stack-parser collaborator's output for the fresh error and
`rawStack` its raw V8 stack text; `none` models the crash on a missing
first frame during location rendering. -/
def errorFactory (reg : Registry) (cwd message : String) (args : List JSVal)
    (frames : List StackFrame) (rawStack : String) : Option Errory :=
  let errorTypeInMessageStr :=
    findTypeInMessage (reg.types.map Prod.fst) reg.opts.typePreceedingChars message
  let stackFrames := frames.drop 2
  let sp := spliceTrailingError args
  match genMessage reg.opts cwd message sp.1 errorTypeInMessageStr
      (truthyOpt errorTypeInMessageStr) stackFrames sp.2 0 with
  | none => none
  | some msg =>
    some
      { name := "Error"
        message := msg
        stack := rebuildStack rawStack msg
        context := some []
        type := errorTypeInMessageStr
        typeIsInMessageString := truthyOpt errorTypeInMessageStr
        stackFrames := stackFrames
        args := sp.1
        wrappedError := sp.2
        msgTemplate := message }

/-- Result of one call to the `type` method: the getter overload's return
value, a successful set (the instance is returned for chaining), or a
synchronously thrown error. -/
inductive TypeRes where
  | got : Option String → TypeRes
  | ok : TypeRes
  | thrown : String → TypeRes
deriving DecidableEq, Repr

/-- The `type` method.  With a falsy `type` argument and no context it is
the getter.  Otherwise it throws if the current type is truthy, and else
stores the given type and context verbatim, re-renders the message and
rebuilds the stack.  The returned instance is the state after the call
(unchanged when the call threw). -/
def typeCall (reg : Registry) (cwd : String) (e : Errory) (t : Option String)
    (ctx : Option Ctx) : Option (TypeRes × Errory) :=
  if !truthyOpt t && ctx.isNone then
    some (.got e.type, e)
  else if truthyOpt e.type then
    some (.thrown "cannot call \"type\" method once already set!", e)
  else
    match genMessage reg.opts cwd e.msgTemplate e.args t e.typeIsInMessageString
        e.stackFrames e.wrappedError 0 with
    | none => none
    | some msg =>
      some (.ok,
        { e with
          type := t
          context := ctx
          message := msg
          stack := rebuildStack e.stack msg })

/-- `wrappedError()` accessor. -/
def wrappedErrorCall (e : Errory) : Option ErrLike := e.wrappedError

/-- First argument of the exported constructor: a string template or an
existing error value (`messageOrError instanceof Error` dispatch). -/
inductive FactoryArg0 where
  | error : ErrLike → FactoryArg0
  | msg : String → FactoryArg0

/-- `errorConstructor(messageOrError, ...args)`: an existing error is
unwrapped to its message with an empty argument list; a string template is
passed through with its arguments. -/
def errorConstructor (reg : Registry) (cwd : String) (messageOrError : FactoryArg0)
    (args : List JSVal) (frames : List StackFrame) (rawStack : String) : Option Errory :=
  match messageOrError with
  | .error e => errorFactory reg cwd e.message [] frames rawStack
  | .msg m => errorFactory reg cwd m args frames rawStack

/-- An arbitrary error value as the identity predicate sees it: the value
of its `__errory` property (absent for foreign errors) and the value of the
hidden `__errory__type` property. -/
structure Candidate where
  erroryProp : Option JSVal
  erroryTypeProp : Option String
deriving DecidableEq, Repr

/-- The candidate view of an instance this registry produced: `__errory` is
the boolean `true` and `__errory__type` is the current type property. -/
def toCandidate (e : Errory) : Candidate :=
  { erroryProp := some (.boolean true), erroryTypeProp := e.type }

/-- `errorConstructor.is(error, type?)`: strict-equality check of the
`__errory` marker against `true`; when the `type` argument is truthy, a
strict-equality check of `__errory__type` against it.  Total, hence it
never throws. -/
def erroryIs (error : Candidate) (t : Option String) : Bool :=
  if error.erroryProp == some (.boolean true) then
    if truthyOpt t then error.erroryTypeProp == t
    else true
  else false

/-- JSON values, with numbers restricted to the integers (the only numbers
this module ever serializes are frame line/column numbers and integral
context values). -/
inductive Json where
  | jnull : Json
  | jbool : Bool → Json
  | jnum : Int → Json
  | jstr : String → Json
  | jarr : List Json → Json
  | jobj : List (String × Json) → Json

/-- JSON string escaping of one character; control characters other than
newline, tab and carriage return are passed through unescaped (the parser
below accepts them, so serialize-then-parse is unaffected). -/
def escChar (c : Char) : List Char :=
  if c = '"' then ['\\', '"']
  else if c = '\\' then ['\\', '\\']
  else if c = '\n' then ['\\', 'n']
  else if c = '\t' then ['\\', 't']
  else if c = '\r' then ['\\', 'r']
  else [c]

/-- JSON string escaping of a character sequence. -/
def escChars : List Char → List Char
  | [] => []
  | c :: rest => escChar c ++ escChars rest

/-- Serialized JSON string literal. -/
def serStrChars (s : String) : List Char :=
  '"' :: escChars s.data ++ ['"']

/-- Decimal digit character. -/
def digitChar : Nat → Char
  | 0 => '0' | 1 => '1' | 2 => '2' | 3 => '3' | 4 => '4'
  | 5 => '5' | 6 => '6' | 7 => '7' | 8 => '8' | 9 => '9'
  | _ => '0'

/-- Decimal digit sequence of a natural number. -/
def natChars (m : Nat) : List Char :=
  if h : m < 10 then [digitChar m]
  else natChars (m / 10) ++ [digitChar (m % 10)]
decreasing_by exact Nat.div_lt_self (by omega) (by omega)

/-- Decimal rendering of an integer. -/
def serInt (n : Int) : List Char :=
  if n < 0 then '-' :: natChars (-n).toNat else natChars n.toNat

mutual

/-- Compact JSON serialization (`JSON.stringify` with no indent). -/
def serJson : Json → List Char
  | .jnull => ['n', 'u', 'l', 'l']
  | .jbool true => ['t', 'r', 'u', 'e']
  | .jbool false => ['f', 'a', 'l', 's', 'e']
  | .jnum n => serInt n
  | .jstr s => serStrChars s
  | .jarr xs => '[' :: serElemsChars xs ++ [']']
  | .jobj kvs => '{' :: serMembersChars kvs ++ ['}']

/-- Comma-separated serialization of array elements. -/
def serElemsChars : List Json → List Char
  | [] => []
  | [x] => serJson x
  | x :: y :: xs => serJson x ++ ',' :: serElemsChars (y :: xs)

/-- Comma-separated serialization of object members. -/
def serMembersChars : List (String × Json) → List Char
  | [] => []
  | [(k, v)] => serStrChars k ++ ':' :: serJson v
  | (k, v) :: m :: rest => serStrChars k ++ ':' :: serJson v ++ ',' :: serMembersChars (m :: rest)

end

/-- `JSON.stringify(x)` (compact form). -/
def jsonStringify (j : Json) : String := ⟨serJson j⟩

/-- JSON whitespace. -/
def isWsChar (c : Char) : Bool :=
  c == ' ' || c == '\t' || c == '\n' || c == '\r'

/-- Skip leading JSON whitespace. -/
def skipWs : List Char → List Char
  | [] => []
  | c :: rest => if isWsChar c then skipWs rest else c :: rest

/-- Single-character JSON string escapes. -/
def unescChar? (c : Char) : Option Char :=
  if c = '"' then some '"'
  else if c = '\\' then some '\\'
  else if c = '/' then some '/'
  else if c = 'n' then some '\n'
  else if c = 't' then some '\t'
  else if c = 'r' then some '\r'
  else if c = 'b' then some (Char.ofNat 8)
  else if c = 'f' then some (Char.ofNat 12)
  else none

/-- Hexadecimal digit value. -/
def hexVal? (c : Char) : Option Nat :=
  if c.isDigit then some (c.toNat - 48)
  else if 'a' ≤ c && c ≤ 'f' then some (c.toNat - 87)
  else if 'A' ≤ c && c ≤ 'F' then some (c.toNat - 55)
  else none

/-- Parse the body of a JSON string literal after the opening quote, up to
and including the closing quote; returns the decoded characters and the
remaining input. -/
def parseStrBody : List Char → Option (List Char × List Char)
  | [] => none
  | c :: rest =>
    if c = '"' then some ([], rest)
    else if c = '\\' then
      match rest with
      | [] => none
      | e :: r =>
        if e = 'u' then
          match r with
          | a :: b :: c2 :: d :: r2 =>
            match hexVal? a, hexVal? b, hexVal? c2, hexVal? d with
            | some ha, some hb, some hc, some hd =>
              (parseStrBody r2).map
                (fun p => (Char.ofNat (((ha * 16 + hb) * 16 + hc) * 16 + hd) :: p.1, p.2))
            | _, _, _, _ => none
          | _ => none
        else
          match unescChar? e with
          | some u => (parseStrBody r).map (fun p => (u :: p.1, p.2))
          | none => none
    else (parseStrBody rest).map (fun p => (c :: p.1, p.2))

/-- Numeric value of a digit sequence. -/
def charsToNat (ds : List Char) : Nat :=
  ds.foldl (fun a c => a * 10 + (c.toNat - 48)) 0

/-- Parse a maximal non-empty digit sequence. -/
def parseNatPart (l : List Char) : Option (Nat × List Char) :=
  let ds := l.takeWhile Char.isDigit
  if ds.isEmpty then none
  else some (charsToNat ds, l.dropWhile Char.isDigit)

/-- Parse a JSON integer (optional minus sign and digits). -/
def parseNumberChars (l : List Char) : Option (Json × List Char) :=
  match l with
  | [] => none
  | c :: rest =>
    if c = '-' then (parseNatPart rest).map (fun p => (Json.jnum (-(p.1 : Int)), p.2))
    else (parseNatPart (c :: rest)).map (fun p => (Json.jnum (p.1 : Int), p.2))

mutual

/-- Recursive-descent JSON value parser; the fuel argument only bounds the
recursion depth and is chosen amply by `jsonParse`. -/
def parseValue : Nat → List Char → Option (Json × List Char)
  | 0, _ => none
  | f + 1, chars =>
    match skipWs chars with
    | [] => none
    | c :: rest =>
      if c = '"' then (parseStrBody rest).map (fun p => (Json.jstr ⟨p.1⟩, p.2))
      else if c = '{' then parseObjRest f rest
      else if c = '[' then parseArrRest f rest
      else if c = 't' then
        match rest with
        | 'r' :: 'u' :: 'e' :: r => some (Json.jbool true, r)
        | _ => none
      else if c = 'f' then
        match rest with
        | 'a' :: 'l' :: 's' :: 'e' :: r => some (Json.jbool false, r)
        | _ => none
      else if c = 'n' then
        match rest with
        | 'u' :: 'l' :: 'l' :: r => some (Json.jnull, r)
        | _ => none
      else parseNumberChars (c :: rest)

/-- Parse the remainder of a JSON object after the opening brace. -/
def parseObjRest : Nat → List Char → Option (Json × List Char)
  | 0, _ => none
  | f + 1, chars =>
    match skipWs chars with
    | '}' :: rest => some (Json.jobj [], rest)
    | other => (parseMembers f other).map (fun p => (Json.jobj p.1, p.2))

/-- Parse the remainder of a JSON array after the opening bracket. -/
def parseArrRest : Nat → List Char → Option (Json × List Char)
  | 0, _ => none
  | f + 1, chars =>
    match skipWs chars with
    | ']' :: rest => some (Json.jarr [], rest)
    | other => (parseElems f other).map (fun p => (Json.jarr p.1, p.2))

/-- Parse one or more `key : value` members including the closing brace. -/
def parseMembers : Nat → List Char → Option (List (String × Json) × List Char)
  | 0, _ => none
  | f + 1, chars =>
    match skipWs chars with
    | '"' :: rest =>
      match parseStrBody rest with
      | none => none
      | some (k, r1) =>
        match skipWs r1 with
        | ':' :: r2 =>
          match parseValue f r2 with
          | none => none
          | some (v, r3) =>
            match skipWs r3 with
            | ',' :: r4 => (parseMembers f r4).map (fun p => ((⟨k⟩, v) :: p.1, p.2))
            | '}' :: r4 => some ([(⟨k⟩, v)], r4)
            | _ => none
        | _ => none
    | _ => none

/-- Parse one or more array elements including the closing bracket. -/
def parseElems : Nat → List Char → Option (List Json × List Char)
  | 0, _ => none
  | f + 1, chars =>
    match parseValue f chars with
    | none => none
    | some (v, r1) =>
      match skipWs r1 with
      | ',' :: r2 => (parseElems f r2).map (fun p => (v :: p.1, p.2))
      | ']' :: r2 => some ([v], r2)
      | _ => none

end

/-- `JSON.parse`: parse one value and require only whitespace after it.
The fuel `2 * length + 1` amply covers the recursion depth of any value the
serializer above produces (proved below for the round-trip). -/
def jsonParse (s : String) : Option Json :=
  match parseValue (2 * s.length + 1) s.data with
  | some (v, rest) => if skipWs rest = [] then some v else none
  | none => none

/-- JSON image of a context value. -/
def ctxValToJson : CtxVal → Json
  | .cstr s => .jstr s
  | .cnum n => .jnum n
  | .cbool b => .jbool b

/-- JSON image of a context mapping. -/
def ctxToJson (c : Ctx) : Json :=
  .jobj (c.map (fun p => (p.1, ctxValToJson p.2)))

/-- JSON image of a stack frame; `undefined` fields are dropped the way
`JSON.stringify` drops them. -/
def frameToJson (f : StackFrame) : Json :=
  .jobj ((match f.fileName with
      | some s => [("fileName", Json.jstr s)]
      | none => []) ++
    (match f.lineNumber with
      | some n => [("lineNumber", Json.jnum (n : Int))]
      | none => []) ++
    (match f.columnNumber with
      | some n => [("columnNumber", Json.jnum (n : Int))]
      | none => []))

/-- The object literal passed to `JSON.stringify` inside `toJSON`, with
`undefined`-valued keys (`type` before tagging, `context` after a tag call
that supplied no context) dropped the way `JSON.stringify` drops them. -/
def erroryJson (e : Errory) : Json :=
  .jobj ([("name", Json.jstr e.name)] ++
    (match e.type with
      | some t => [("type", Json.jstr t)]
      | none => []) ++
    [("message", Json.jstr e.message)] ++
    (match e.context with
      | some c => [("context", ctxToJson c)]
      | none => []) ++
    [("stack", Json.jarr (e.stackFrames.map frameToJson))])

/-- `toJSON()` with the default `pretty = false`; `pretty` only selects
2-space indentation, which changes none of the serialized data. -/
def toJSON (e : Errory) : String := jsonStringify (erroryJson e)

/-- Field access on a parsed JSON object. -/
def jGet (j : Json) (k : String) : Option Json :=
  match j with
  | .jobj kvs => kvs.lookup k
  | _ => none

mutual

/-- Parser fuel amply sufficient for a serialized value (used to justify
the fuel chosen by `jsonParse`). -/
def jsonFuel : Json → Nat
  | .jnull => 1
  | .jbool _ => 1
  | .jnum _ => 1
  | .jstr _ => 1
  | .jarr xs => 2 + elemsFuel xs
  | .jobj kvs => 2 + membersFuel kvs

/-- Fuel for a serialized element list. -/
def elemsFuel : List Json → Nat
  | [] => 0
  | v :: t => 1 + jsonFuel v + elemsFuel t

/-- Fuel for a serialized member list. -/
def membersFuel : List (String × Json) → Nat
  | [] => 0
  | (_, v) :: t => 1 + jsonFuel v + membersFuel t

end

/-- The remaining input does not begin with a decimal digit (so that a
parsed number cannot greedily consume it). -/
def notDigitStart (l : List Char) : Prop :=
  ∀ c, l.head? = some c → c.isDigit = false

/-- A category config with an empty declared context schema. -/
def cfgEmpty : ErrorTypeConfig := ⟨some []⟩

/-- A four-line raw V8 stack text used by the concrete scenarios. -/
def raw0 : String := "a\nb\nc\nd"

/-- Registry declaring the single category `A`, default options. -/
def regEmptyA : Registry := buildError [("A", cfgEmpty)] {}

/-- Registry declaring `A` then `B`, default options. -/
def regAB : Registry := buildError [("A", cfgEmpty), ("B", cfgEmpty)] {}

/-- Registry declaring the empty-named category and `A`, default options. -/
def regBlankA : Registry := buildError [("", cfgEmpty), ("A", cfgEmpty)] {}

/-- A plain (non-errory) cause used by the concrete scenarios. -/
def cause0 : ErrLike := ⟨"cause", "Error: cause", false⟩

/-- Options enabling the type and location fragments (the wrapped-cause
fragment is on by default). -/
def optsC6 : Options := { locationInMessage := some true, typeInMessage := some true }

/-- Registry declaring `A` with type/location/wrapped fragments enabled. -/
def regC6 : Registry := buildError [("A", cfgEmpty)] optsC6

/-- Parsed stack frames handed to the factory in the concrete scenarios;
the factory drops the first two, leaving the `g.ts` caller frame. -/
def framesW : List StackFrame :=
  [⟨some "a.ts", some 1, some 1⟩, ⟨some "b.ts", some 2, some 2⟩, ⟨some "g.ts", some 4, some 5⟩]

/-- The caller-relevant frame left over after the factory trims two. -/
def frameG : StackFrame := ⟨some "g.ts", some 4, some 5⟩

/-- An untagged instance state (no location rendering, empty frame list)
used as a concrete input by witnesses. -/
def untaggedE : Errory :=
  ⟨"Error", "m", "s", some [], none, false, [], [], none, "m"⟩

/-- An instance state already tagged `A`, used as a concrete input by
witnesses. -/
def taggedA : Errory :=
  ⟨"Error", "m", "s", some [], some "A", false, [], [], none, "m"⟩

/-- A tagged instance carrying a context payload, used by the round-trip
witness. -/
def c7e : Errory :=
  ⟨"Error", "m", "s", some [("x", CtxVal.cnum 1)], some "A", false, [frameG], [], none, "m"⟩

/-- Rendered message of the C6 scenario before tagging. -/
def c6msg0 : String := "boom z  (g.ts:4:5): Error: cause"

/-- The C6 instance as constructed (untagged, plain cause, location on). -/
def c6e0 : Errory :=
  ⟨"Error", c6msg0, rebuildStack raw0 c6msg0, some [], none, false, [frameG],
    [JSVal.str "z"], some cause0, "boom %s"⟩

/-- Rendered message of the C6 scenario after tagging `A`. -/
def c6msg1 : String := "boom z  --A  (g.ts:4:5): Error: cause"

/-- The C6 instance after the tag call. -/
def c6e1 : Errory :=
  ⟨"Error", c6msg1, rebuildStack (rebuildStack raw0 c6msg0) c6msg1, none, some "A", false,
    [frameG], [JSVal.str "z"], some cause0, "boom %s"⟩

/-- Rendered message of the C6 auto-detected scenario. -/
def c6msg2 : String := "boom --A  (g.ts:4:5): Error: cause"

/-- The C6 instance whose category was auto-detected from the template. -/
def c6e2 : Errory :=
  ⟨"Error", c6msg2, rebuildStack raw0 c6msg2, some [], some "A", true, [frameG], [],
    some cause0, "boom --A"⟩

/-- Skipping whitespace is the identity on input starting with a
non-whitespace character. -/
theorem skipWs_not_ws {c : Char} (h : isWsChar c = false) (l : List Char) :
    skipWs (c :: l) = c :: l := by
  simp [skipWs, h]

/-- Step equation: closing quote ends the string-literal body. -/
theorem parseStrBody_quote (rest : List Char) : parseStrBody ('"' :: rest) = some ([], rest) := by
  rw [parseStrBody.eq_def]; rfl

/-- Step equation: escaped quote. -/
theorem parseStrBody_esc_quote (r : List Char) :
    parseStrBody ('\\' :: '"' :: r) = (parseStrBody r).map (fun p => ('"' :: p.1, p.2)) := by
  rw [parseStrBody.eq_def]; rfl

/-- Step equation: escaped backslash. -/
theorem parseStrBody_esc_bslash (r : List Char) :
    parseStrBody ('\\' :: '\\' :: r) = (parseStrBody r).map (fun p => ('\\' :: p.1, p.2)) := by
  rw [parseStrBody.eq_def]; rfl

/-- Step equation: escaped newline. -/
theorem parseStrBody_esc_n (r : List Char) :
    parseStrBody ('\\' :: 'n' :: r) = (parseStrBody r).map (fun p => ('\n' :: p.1, p.2)) := by
  rw [parseStrBody.eq_def]; rfl

/-- Step equation: escaped tab. -/
theorem parseStrBody_esc_t (r : List Char) :
    parseStrBody ('\\' :: 't' :: r) = (parseStrBody r).map (fun p => ('\t' :: p.1, p.2)) := by
  rw [parseStrBody.eq_def]; rfl

/-- Step equation: escaped carriage return. -/
theorem parseStrBody_esc_r (r : List Char) :
    parseStrBody ('\\' :: 'r' :: r) = (parseStrBody r).map (fun p => ('\r' :: p.1, p.2)) := by
  rw [parseStrBody.eq_def]; rfl

/-- Step equation: an unescaped ordinary character is copied through. -/
theorem parseStrBody_default (c : Char) (rest : List Char) (h1 : ¬c = '"') (h2 : ¬c = '\\') :
    parseStrBody (c :: rest) = (parseStrBody rest).map (fun p => (c :: p.1, p.2)) := by
  rw [parseStrBody.eq_def]
  simp [h1, h2]

/-- Parsing a string-literal body undoes the serializer's escaping. -/
theorem parseStrBody_escChars : ∀ (l rest : List Char),
    parseStrBody (escChars l ++ '"' :: rest) = some (l, rest) := by
  intro l
  induction l with
  | nil => intro rest; simp [escChars, parseStrBody_quote]
  | cons c t ih =>
    intro rest
    by_cases h1 : c = '"'
    · subst h1
      simp [escChars, escChar, parseStrBody_esc_quote, ih]
    · by_cases h2 : c = '\\'
      · subst h2
        simp [escChars, escChar, parseStrBody_esc_bslash, ih]
      · by_cases h3 : c = '\n'
        · subst h3
          simp [escChars, escChar, parseStrBody_esc_n, ih]
        · by_cases h4 : c = '\t'
          · subst h4
            simp [escChars, escChar, parseStrBody_esc_t, ih]
          · by_cases h5 : c = '\r'
            · subst h5
              simp [escChars, escChar, parseStrBody_esc_r, ih]
            · simp [escChars, escChar, h1, h2, h3, h4, h5, parseStrBody_default c _ h1 h2, ih]

/-- The characters emitted by `digitChar` are decimal digits. -/
theorem digitChar_isDigit {m : Nat} (h : m < 10) : (digitChar m).isDigit = true := by
  interval_cases m <;> decide

/-- Code point of an emitted digit character. -/
theorem digitChar_toNat {m : Nat} (h : m < 10) : (digitChar m).toNat = 48 + m := by
  interval_cases m <;> decide

/-- `natChars` always emits at least one character. -/
theorem natChars_ne_nil (m : Nat) : natChars m ≠ [] := by
  rw [natChars]
  split <;> simp

/-- Every character emitted by `natChars` is a digit. -/
theorem natChars_digits : ∀ m c, c ∈ natChars m → c.isDigit = true := by
  intro m
  induction m using Nat.strong_induction_on with
  | _ m ih =>
    intro c hc
    rw [natChars] at hc
    split at hc
    · simp at hc
      subst hc
      exact digitChar_isDigit (by omega)
    · rcases List.mem_append.1 hc with h | h
      · exact ih (m / 10) (Nat.div_lt_self (by omega) (by omega)) c h
      · simp at h
        subst h
        exact digitChar_isDigit (Nat.mod_lt _ (by omega))

/-- Reading back the digit string of a natural number. -/
theorem charsToNat_natChars : ∀ m, charsToNat (natChars m) = m := by
  intro m
  induction m using Nat.strong_induction_on with
  | _ m ih =>
    rw [natChars]
    split
    · simp [charsToNat, digitChar_toNat (by omega : m < 10)]
    · have hd : (10 : Nat) ≤ m := by omega
      have := ih (m / 10) (Nat.div_lt_self (by omega) (by omega))
      simp [charsToNat, List.foldl_append] at this ⊢
      rw [this, digitChar_toNat (Nat.mod_lt _ (by omega))]
      omega

/-- `takeWhile`/`dropWhile` split an all-satisfying block off a remainder
whose head fails the predicate. -/
theorem takeWhile_append_all {p : Char → Bool} : ∀ (l rest : List Char),
    (∀ c ∈ l, p c = true) → (∀ c, rest.head? = some c → p c = false) →
    (l ++ rest).takeWhile p = l ∧ (l ++ rest).dropWhile p = rest := by
  intro l
  induction l with
  | nil =>
    intro rest h1 h2
    cases rest with
    | nil => simp
    | cons c r => simp [List.takeWhile_cons, List.dropWhile_cons, h2 c rfl]
  | cons a t ih =>
    intro rest h1 h2
    have hpa := h1 a (by simp)
    obtain ⟨ih1, ih2⟩ := ih rest (fun c hc => h1 c (by simp [hc])) h2
    constructor <;> simp [List.takeWhile_cons, List.dropWhile_cons, hpa, ih1, ih2]

/-- Parsing the maximal digit block of a serialized natural number. -/
theorem parseNatPart_natChars (m : Nat) (rest : List Char) (h : notDigitStart rest) :
    parseNatPart (natChars m ++ rest) = some (m, rest) := by
  obtain ⟨h1, h2⟩ := takeWhile_append_all (natChars m) rest (natChars_digits m) h
  have hne := natChars_ne_nil m
  simp [parseNatPart, h1, h2, charsToNat_natChars, hne]

/-- Round trip for serialized integers. -/
theorem parseNumberChars_serInt (n : Int) (rest : List Char) (h : notDigitStart rest) :
    parseNumberChars (serInt n ++ rest) = some (.jnum n, rest) := by
  by_cases hn : n < 0
  · simp only [serInt, if_pos hn, List.cons_append]
    simp [parseNumberChars, parseNatPart_natChars _ _ h]
    omega
  · simp only [serInt, if_neg hn]
    cases hnc : natChars n.toNat with
    | nil => exact absurd hnc (natChars_ne_nil _)
    | cons c cs =>
      have hcd : c.isDigit = true := natChars_digits n.toNat c (by rw [hnc]; simp)
      have hcne : ¬(c = '-') := by
        rintro rfl
        exact absurd hcd (by decide)
      rw [List.cons_append, parseNumberChars.eq_def]
      simp only [if_neg hcne]
      rw [← List.cons_append, ← hnc, parseNatPart_natChars _ _ h]
      simp
      omega

/-- Every serialized value needs at least one unit of fuel. -/
theorem jsonFuel_pos : ∀ v : Json, 1 ≤ jsonFuel v := by
  intro v
  cases v <;> simp [jsonFuel] <;> omega

/-- A digit character is not JSON whitespace. -/
theorem isDigit_not_ws {c : Char} (h : c.isDigit = true) : isWsChar c = false := by
  by_contra hw
  have hw' : isWsChar c = true := by
    cases hx : isWsChar c
    · exact absurd hx hw
    · rfl
  simp [isWsChar] at hw'
  rcases hw' with ((rfl | rfl) | rfl) | rfl <;> exact absurd h (by decide)

/-- Rebuilding a string from its character data. -/
theorem stringMk_data (s : String) : (⟨s.data⟩ : String) = s := rfl

/-- Step equation: a quote starts a string value. -/
theorem parseValue_quote (f : Nat) (rest : List Char) :
    parseValue (f + 1) ('"' :: rest) =
      (parseStrBody rest).map (fun p => (Json.jstr ⟨p.1⟩, p.2)) := by
  rw [parseValue.eq_def]; rfl

/-- Step equation: an opening brace starts an object. -/
theorem parseValue_obrace (f : Nat) (rest : List Char) :
    parseValue (f + 1) ('{' :: rest) = parseObjRest f rest := by
  rw [parseValue.eq_def]; rfl

/-- Step equation: an opening bracket starts an array. -/
theorem parseValue_obracket (f : Nat) (rest : List Char) :
    parseValue (f + 1) ('[' :: rest) = parseArrRest f rest := by
  rw [parseValue.eq_def]; rfl

/-- Step equation: the `true` literal. -/
theorem parseValue_true (f : Nat) (rest : List Char) :
    parseValue (f + 1) ('t' :: 'r' :: 'u' :: 'e' :: rest) = some (Json.jbool true, rest) := by
  rw [parseValue.eq_def]; rfl

/-- Step equation: the `false` literal. -/
theorem parseValue_false (f : Nat) (rest : List Char) :
    parseValue (f + 1) ('f' :: 'a' :: 'l' :: 's' :: 'e' :: rest) = some (Json.jbool false, rest) := by
  rw [parseValue.eq_def]; rfl

/-- Step equation: the `null` literal. -/
theorem parseValue_null (f : Nat) (rest : List Char) :
    parseValue (f + 1) ('n' :: 'u' :: 'l' :: 'l' :: rest) = some (Json.jnull, rest) := by
  rw [parseValue.eq_def]; rfl

/-- Step equation: a minus sign starts a number. -/
theorem parseValue_dash (f : Nat) (rest : List Char) :
    parseValue (f + 1) ('-' :: rest) = parseNumberChars ('-' :: rest) := by
  rw [parseValue.eq_def]; rfl

/-- Step equation: one unit of fuel unfolds the value parser once. -/
theorem parseValue_succ (f : Nat) (chars : List Char) :
    parseValue (f + 1) chars =
      match skipWs chars with
      | [] => none
      | c :: rest =>
        if c = '"' then (parseStrBody rest).map (fun p => (Json.jstr ⟨p.1⟩, p.2))
        else if c = '{' then parseObjRest f rest
        else if c = '[' then parseArrRest f rest
        else if c = 't' then
          match rest with
          | 'r' :: 'u' :: 'e' :: r => some (Json.jbool true, r)
          | _ => none
        else if c = 'f' then
          match rest with
          | 'a' :: 'l' :: 's' :: 'e' :: r => some (Json.jbool false, r)
          | _ => none
        else if c = 'n' then
          match rest with
          | 'u' :: 'l' :: 'l' :: r => some (Json.jnull, r)
          | _ => none
        else parseNumberChars (c :: rest) := by
  rw [parseValue.eq_def]

/-- Step equation: a digit starts a number. -/
theorem parseValue_digit (f : Nat) {c : Char} (h : c.isDigit = true) (rest : List Char) :
    parseValue (f + 1) (c :: rest) = parseNumberChars (c :: rest) := by
  have h1 : ¬(c = '"') := by rintro rfl; exact absurd h (by decide)
  have h2 : ¬(c = '{') := by rintro rfl; exact absurd h (by decide)
  have h3 : ¬(c = '[') := by rintro rfl; exact absurd h (by decide)
  have h4 : ¬(c = 't') := by rintro rfl; exact absurd h (by decide)
  have h5 : ¬(c = 'f') := by rintro rfl; exact absurd h (by decide)
  have h6 : ¬(c = 'n') := by rintro rfl; exact absurd h (by decide)
  rw [parseValue_succ, skipWs_not_ws (isDigit_not_ws h)]
  simp [h1, h2, h3, h4, h5, h6]

/-- Step equation: one unit of fuel unfolds the object-rest parser once. -/
theorem parseObjRest_succ (f : Nat) (chars : List Char) :
    parseObjRest (f + 1) chars =
      match skipWs chars with
      | '}' :: rest => some (Json.jobj [], rest)
      | other => (parseMembers f other).map (fun p => (Json.jobj p.1, p.2)) := by
  rw [parseObjRest.eq_def]

/-- Step equation: one unit of fuel unfolds the array-rest parser once. -/
theorem parseArrRest_succ (f : Nat) (chars : List Char) :
    parseArrRest (f + 1) chars =
      match skipWs chars with
      | ']' :: rest => some (Json.jarr [], rest)
      | other => (parseElems f other).map (fun p => (Json.jarr p.1, p.2)) := by
  rw [parseArrRest.eq_def]

/-- Step equation: one unit of fuel unfolds the member parser once. -/
theorem parseMembers_succ (f : Nat) (chars : List Char) :
    parseMembers (f + 1) chars =
      match skipWs chars with
      | '"' :: rest =>
        match parseStrBody rest with
        | none => none
        | some (k, r1) =>
          match skipWs r1 with
          | ':' :: r2 =>
            match parseValue f r2 with
            | none => none
            | some (v, r3) =>
              match skipWs r3 with
              | ',' :: r4 => (parseMembers f r4).map (fun p => ((⟨k⟩, v) :: p.1, p.2))
              | '}' :: r4 => some ([(⟨k⟩, v)], r4)
              | _ => none
          | _ => none
      | _ => none := by
  rw [parseMembers.eq_def]

/-- Step equation: one unit of fuel unfolds the element parser once. -/
theorem parseElems_succ (f : Nat) (chars : List Char) :
    parseElems (f + 1) chars =
      match parseValue f chars with
      | none => none
      | some (v, r1) =>
        match skipWs r1 with
        | ',' :: r2 => (parseElems f r2).map (fun p => (v :: p.1, p.2))
        | ']' :: r2 => some ([v], r2)
        | _ => none := by
  rw [parseElems.eq_def]

/-- Step equation: a closing brace right away yields the empty object. -/
theorem parseObjRest_cbrace (f : Nat) (rest : List Char) :
    parseObjRest (f + 1) ('}' :: rest) = some (Json.jobj [], rest) := by
  rw [parseObjRest_succ]; rfl

/-- Step equation: a quote after the opening brace starts the member list. -/
theorem parseObjRest_quote (f : Nat) (l : List Char) :
    parseObjRest (f + 1) ('"' :: l) =
      (parseMembers f ('"' :: l)).map (fun p => (Json.jobj p.1, p.2)) := by
  rw [parseObjRest_succ]; rfl

/-- Step equation: a closing bracket right away yields the empty array. -/
theorem parseArrRest_cbracket (f : Nat) (rest : List Char) :
    parseArrRest (f + 1) (']' :: rest) = some (Json.jarr [], rest) := by
  rw [parseArrRest_succ]; rfl

/-- Step equation: any other head character starts the element list. -/
theorem parseArrRest_cons (f : Nat) {c : Char} (hc : isWsChar c = false)
    (hne : ¬c = ']') (l : List Char) :
    parseArrRest (f + 1) (c :: l) =
      (parseElems f (c :: l)).map (fun p => (Json.jarr p.1, p.2)) := by
  rw [parseArrRest_succ, skipWs_not_ws hc]
  split
  · next rest heq =>
    injection heq with h1 h2
    exact absurd h1 hne
  · rfl

/-- The first character of any serialized value: never whitespace and never
a closing delimiter or separator. -/
theorem serJson_head_spec (v : Json) : ∃ c l, serJson v = c :: l ∧ isWsChar c = false ∧
    ¬c = ']' ∧ ¬c = '}' ∧ ¬c = ',' := by
  cases v with
  | jnull => exact ⟨'n', _, rfl, by decide, by decide, by decide, by decide⟩
  | jbool b =>
    cases b with
    | true => exact ⟨'t', _, rfl, by decide, by decide, by decide, by decide⟩
    | false => exact ⟨'f', _, rfl, by decide, by decide, by decide, by decide⟩
  | jnum n =>
    show ∃ c l, serInt n = c :: l ∧ _
    by_cases hn : n < 0
    · refine ⟨'-', natChars (-n).toNat, ?_, by decide, by decide, by decide, by decide⟩
      simp [serInt, hn]
    · cases hnc : natChars n.toNat with
      | nil => exact absurd hnc (natChars_ne_nil _)
      | cons c cs =>
        have hcd : c.isDigit = true := natChars_digits n.toNat c (by rw [hnc]; simp)
        refine ⟨c, cs, ?_, isDigit_not_ws hcd, ?_, ?_, ?_⟩
        · simp [serInt, hn, hnc]
        · rintro rfl; exact absurd hcd (by decide)
        · rintro rfl; exact absurd hcd (by decide)
        · rintro rfl; exact absurd hcd (by decide)
  | jstr s => exact ⟨'"', _, rfl, by decide, by decide, by decide, by decide⟩
  | jarr xs => exact ⟨'[', _, rfl, by decide, by decide, by decide, by decide⟩
  | jobj kvs => exact ⟨'{', _, rfl, by decide, by decide, by decide, by decide⟩

/-- A remainder starting with a non-digit character cannot be consumed by
the number parser. -/
theorem notDigitStart_cons {c : Char} (h : c.isDigit = false) (l : List Char) :
    notDigitStart (c :: l) := by
  intro c' hc'
  simp at hc'
  subst hc'
  exact h

/-- The empty remainder starts with no digit. -/
theorem notDigitStart_nil : notDigitStart [] := by
  intro c hc
  simp at hc

/-- Step equation: parsing one member off a serialized key and colon. -/
theorem parseMembers_step (f : Nat) (kdata : List Char) (l : List Char) :
    parseMembers (f + 1) ('"' :: (escChars kdata ++ '"' :: ':' :: l)) =
      match parseValue f l with
      | none => none
      | some (v, r3) =>
        match skipWs r3 with
        | ',' :: r4 => (parseMembers f r4).map (fun p => ((⟨kdata⟩, v) :: p.1, p.2))
        | '}' :: r4 => some ([(⟨kdata⟩, v)], r4)
        | _ => none := by
  rw [parseMembers_succ, skipWs_not_ws (by decide)]
  show (match parseStrBody (escChars kdata ++ '"' :: ':' :: l) with
    | none => none
    | some (k, r1) =>
      match skipWs r1 with
      | ':' :: r2 =>
        match parseValue f r2 with
        | none => none
        | some (v, r3) =>
          match skipWs r3 with
          | ',' :: r4 => (parseMembers f r4).map (fun p => ((⟨k⟩, v) :: p.1, p.2))
          | '}' :: r4 => some ([(⟨k⟩, v)], r4)
          | _ => none
      | _ => none :
    Option (List (String × Json) × List Char)) =
      (match parseValue f l with
      | none => none
      | some (v, r3) =>
        match skipWs r3 with
        | ',' :: r4 => (parseMembers f r4).map (fun p => ((⟨kdata⟩, v) :: p.1, p.2))
        | '}' :: r4 => some ([(⟨kdata⟩, v)], r4)
        | _ => none :
      Option (List (String × Json) × List Char))
  rw [parseStrBody_escChars]
  show (match skipWs (':' :: l) with
    | ':' :: r2 =>
      match parseValue f r2 with
      | none => none
      | some (v, r3) =>
        match skipWs r3 with
        | ',' :: r4 => (parseMembers f r4).map (fun p => ((⟨kdata⟩, v) :: p.1, p.2))
        | '}' :: r4 => some ([(⟨kdata⟩, v)], r4)
        | _ => none
    | _ => none :
    Option (List (String × Json) × List Char)) = _
  rw [skipWs_not_ws (by decide)]
  rfl

/-- Round trip of the JSON serializer through the parser, by strong
induction on the parser fuel: with enough fuel, parsing a serialized value
consumes exactly its serialization. -/
theorem parseSer_aux : ∀ F : Nat,
    (∀ (v : Json) (rest : List Char), jsonFuel v ≤ F → notDigitStart rest →
      parseValue F (serJson v ++ rest) = some (v, rest)) ∧
    (∀ (kvs : List (String × Json)) (rest : List Char), 1 + membersFuel kvs ≤ F →
      parseObjRest F (serMembersChars kvs ++ '}' :: rest) = some (Json.jobj kvs, rest)) ∧
    (∀ (xs : List Json) (rest : List Char), 1 + elemsFuel xs ≤ F →
      parseArrRest F (serElemsChars xs ++ ']' :: rest) = some (Json.jarr xs, rest)) ∧
    (∀ (kvs : List (String × Json)) (rest : List Char), kvs ≠ [] → membersFuel kvs ≤ F →
      parseMembers F (serMembersChars kvs ++ '}' :: rest) = some (kvs, rest)) ∧
    (∀ (xs : List Json) (rest : List Char), xs ≠ [] → elemsFuel xs ≤ F →
      parseElems F (serElemsChars xs ++ ']' :: rest) = some (xs, rest)) := by
  intro F
  induction F using Nat.strong_induction_on with
  | _ F IH =>
    refine ⟨?_, ?_, ?_, ?_, ?_⟩
    · intro v rest hf hrest
      obtain ⟨F', rfl⟩ : ∃ F', F = F' + 1 := ⟨F - 1, by have := jsonFuel_pos v; omega⟩
      cases v with
      | jnull =>
        rw [show serJson Json.jnull ++ rest = 'n' :: 'u' :: 'l' :: 'l' :: rest from by
          simp [serJson]]
        exact parseValue_null F' rest
      | jbool b =>
        cases b
        · rw [show serJson (Json.jbool false) ++ rest = 'f' :: 'a' :: 'l' :: 's' :: 'e' :: rest from by
            simp [serJson]]
          exact parseValue_false F' rest
        · rw [show serJson (Json.jbool true) ++ rest = 't' :: 'r' :: 'u' :: 'e' :: rest from by
            simp [serJson]]
          exact parseValue_true F' rest
      | jnum n =>
        by_cases hn : n < 0
        · have h1 : serJson (Json.jnum n) = '-' :: natChars (-n).toNat := by
            simp [serJson, serInt, hn]
          rw [h1, List.cons_append, parseValue_dash, ← List.cons_append, ← h1]
          show parseNumberChars (serInt n ++ rest) = _
          exact parseNumberChars_serInt n rest hrest
        · cases hnc : natChars n.toNat with
          | nil => exact absurd hnc (natChars_ne_nil _)
          | cons c cs =>
            have hcd : c.isDigit = true := natChars_digits n.toNat c (by rw [hnc]; simp)
            have h1 : serJson (Json.jnum n) = c :: cs := by
              simp [serJson, serInt, hn, hnc]
            rw [h1, List.cons_append, parseValue_digit F' hcd, ← List.cons_append, ← h1]
            show parseNumberChars (serInt n ++ rest) = _
            exact parseNumberChars_serInt n rest hrest
      | jstr s =>
        rw [show serJson (Json.jstr s) ++ rest = '"' :: (escChars s.data ++ '"' :: rest) from by
          simp [serJson, serStrChars]]
        rw [parseValue_quote, parseStrBody_escChars]
        rfl
      | jarr xs =>
        cases xs with
        | nil =>
          obtain ⟨F'', rfl⟩ : ∃ F'', F' = F'' + 1 :=
            ⟨F' - 1, by simp [jsonFuel, elemsFuel] at hf; omega⟩
          rw [show serJson (Json.jarr []) ++ rest = '[' :: ']' :: rest from by
            simp [serJson, serElemsChars]]
          rw [parseValue_obracket]
          exact parseArrRest_cbracket F'' rest
        | cons x t =>
          rw [show serJson (Json.jarr (x :: t)) ++ rest =
            '[' :: (serElemsChars (x :: t) ++ ']' :: rest) from by simp [serJson]]
          rw [parseValue_obracket]
          exact (IH F' (by omega)).2.2.1 (x :: t) rest (by simp [jsonFuel] at hf; omega)
      | jobj kvs =>
        rw [show serJson (Json.jobj kvs) ++ rest =
          '{' :: (serMembersChars kvs ++ '}' :: rest) from by simp [serJson]]
        rw [parseValue_obrace]
        exact (IH F' (by omega)).2.1 kvs rest (by simp [jsonFuel] at hf; omega)
    · intro kvs rest hf
      obtain ⟨F', rfl⟩ : ∃ F', F = F' + 1 := ⟨F - 1, by omega⟩
      cases kvs with
      | nil =>
        rw [show serMembersChars [] ++ '}' :: rest = '}' :: rest from by simp [serMembersChars]]
        exact parseObjRest_cbrace F' rest
      | cons kv tail =>
        obtain ⟨k, v⟩ := kv
        have hl : ∃ l, serMembersChars ((k, v) :: tail) ++ '}' :: rest = '"' :: l := by
          cases tail with
          | nil =>
            exact ⟨escChars k.data ++ '"' :: ':' :: (serJson v ++ '}' :: rest), by
              simp [serMembersChars, serStrChars]⟩
          | cons m t2 =>
            exact ⟨escChars k.data ++ '"' :: ':' ::
              (serJson v ++ ',' :: (serMembersChars (m :: t2) ++ '}' :: rest)), by
              simp [serMembersChars, serStrChars]⟩
        obtain ⟨l, hl⟩ := hl
        rw [hl, parseObjRest_quote, ← hl]
        rw [(IH F' (by omega)).2.2.2.1 ((k, v) :: tail) rest (by simp) (by omega)]
        rfl
    · intro xs rest hf
      obtain ⟨F', rfl⟩ : ∃ F', F = F' + 1 := ⟨F - 1, by omega⟩
      cases xs with
      | nil =>
        rw [show serElemsChars [] ++ ']' :: rest = ']' :: rest from by simp [serElemsChars]]
        exact parseArrRest_cbracket F' rest
      | cons x t =>
        obtain ⟨c, l, hcl, hws, hbr, _, _⟩ := serJson_head_spec x
        have hW : ∃ W, serElemsChars (x :: t) = serJson x ++ W := by
          cases t with
          | nil => exact ⟨[], by simp [serElemsChars]⟩
          | cons y t2 => exact ⟨',' :: serElemsChars (y :: t2), rfl⟩
        obtain ⟨W, hW⟩ := hW
        have hinput : serElemsChars (x :: t) ++ ']' :: rest = c :: (l ++ (W ++ ']' :: rest)) := by
          rw [hW, hcl]
          simp
        rw [hinput, parseArrRest_cons F' hws hbr, ← hinput]
        rw [(IH F' (by omega)).2.2.2.2 (x :: t) rest (by simp) (by omega)]
        rfl
    · intro kvs rest hne hf
      cases kvs with
      | nil => exact absurd rfl hne
      | cons kv tail =>
        obtain ⟨k, v⟩ := kv
        have hfv := jsonFuel_pos v
        obtain ⟨F', rfl⟩ : ∃ F', F = F' + 1 := ⟨F - 1, by simp [membersFuel] at hf; omega⟩
        cases tail with
        | nil =>
          have hinput : serMembersChars [(k, v)] ++ '}' :: rest =
              '"' :: (escChars k.data ++ '"' :: ':' :: (serJson v ++ '}' :: rest)) := by
            simp [serMembersChars, serStrChars]
          rw [hinput, parseMembers_step]
          rw [(IH F' (by omega)).1 v ('}' :: rest) (by simp [membersFuel] at hf; omega)
            (notDigitStart_cons (by decide) rest)]
          rfl
        | cons m t2 =>
          have hinput : serMembersChars ((k, v) :: m :: t2) ++ '}' :: rest =
              '"' :: (escChars k.data ++ '"' :: ':' ::
                (serJson v ++ ',' :: (serMembersChars (m :: t2) ++ '}' :: rest))) := by
            simp [serMembersChars, serStrChars]
          rw [hinput, parseMembers_step]
          rw [(IH F' (by omega)).1 v (',' :: (serMembersChars (m :: t2) ++ '}' :: rest))
            (by simp [membersFuel] at hf; omega) (notDigitStart_cons (by decide) _)]
          show ((parseMembers F' (serMembersChars (m :: t2) ++ '}' :: rest)).map
            (fun p => ((⟨k.data⟩, v) :: p.1, p.2))) = _
          rw [(IH F' (by omega)).2.2.2.1 (m :: t2) rest (by simp)
            (by simp [membersFuel] at hf ⊢; omega)]
          rfl
    · intro xs rest hne hf
      cases xs with
      | nil => exact absurd rfl hne
      | cons x t =>
        have hfx := jsonFuel_pos x
        obtain ⟨F', rfl⟩ : ∃ F', F = F' + 1 := ⟨F - 1, by simp [elemsFuel] at hf; omega⟩
        cases t with
        | nil =>
          rw [show serElemsChars [x] ++ ']' :: rest = serJson x ++ ']' :: rest from by
            simp [serElemsChars]]
          rw [parseElems_succ]
          rw [(IH F' (by omega)).1 x (']' :: rest) (by simp [elemsFuel] at hf; omega)
            (notDigitStart_cons (by decide) rest)]
          rfl
        | cons y t2 =>
          rw [show serElemsChars (x :: y :: t2) ++ ']' :: rest =
            serJson x ++ (',' :: (serElemsChars (y :: t2) ++ ']' :: rest)) from by
            simp [serElemsChars]]
          rw [parseElems_succ]
          rw [(IH F' (by omega)).1 x (',' :: (serElemsChars (y :: t2) ++ ']' :: rest))
            (by simp [elemsFuel] at hf; omega) (notDigitStart_cons (by decide) _)]
          show ((parseElems F' (serElemsChars (y :: t2) ++ ']' :: rest)).map
            (fun p => (x :: p.1, p.2))) = _
          rw [(IH F' (by omega)).2.2.2.2 (y :: t2) rest (by simp)
            (by simp [elemsFuel] at hf ⊢; omega)]
          rfl

/-- A serialized integer is never empty. -/
theorem serInt_ne_nil (n : Int) : serInt n ≠ [] := by
  rw [serInt]
  split
  · simp
  · exact natChars_ne_nil _

mutual

/-- The fuel needed for a value is within twice its serialized length. -/
theorem jsonFuel_le (v : Json) : jsonFuel v ≤ 2 * (serJson v).length := by
  cases v with
  | jnull => simp [jsonFuel, serJson]
  | jbool b => cases b <;> simp [jsonFuel, serJson]
  | jnum n =>
    have h := serInt_ne_nil n
    have : 1 ≤ (serInt n).length := by
      cases hc : serInt n with
      | nil => exact absurd hc h
      | cons c cs => simp
    simp only [jsonFuel, serJson]
    omega
  | jstr s =>
    simp only [jsonFuel, serJson, serStrChars]
    simp
    omega
  | jarr xs =>
    have h := elemsFuel_le xs
    simp only [jsonFuel, serJson]
    simp
    omega
  | jobj kvs =>
    have h := membersFuel_le kvs
    simp only [jsonFuel, serJson]
    simp
    omega

/-- The fuel needed for an element list is within twice its serialized
length plus one. -/
theorem elemsFuel_le (xs : List Json) : elemsFuel xs ≤ 2 * (serElemsChars xs).length + 1 := by
  cases xs with
  | nil => simp [elemsFuel]
  | cons x t =>
    cases t with
    | nil =>
      have h := jsonFuel_le x
      simp only [elemsFuel, serElemsChars]
      simp [elemsFuel]
      omega
    | cons y t2 =>
      have h1 := jsonFuel_le x
      have h2 := elemsFuel_le (y :: t2)
      simp only [elemsFuel, serElemsChars] at h2 ⊢
      simp
      omega

/-- The fuel needed for a member list is within twice its serialized
length. -/
theorem membersFuel_le (kvs : List (String × Json)) :
    membersFuel kvs ≤ 2 * (serMembersChars kvs).length := by
  cases kvs with
  | nil => simp [membersFuel]
  | cons kv tail =>
    obtain ⟨k, v⟩ := kv
    cases tail with
    | nil =>
      have h := jsonFuel_le v
      simp only [membersFuel, serMembersChars, serStrChars]
      simp [membersFuel]
      omega
    | cons m t2 =>
      have h1 := jsonFuel_le v
      have h2 := membersFuel_le (m :: t2)
      simp only [membersFuel, serMembersChars, serStrChars] at h2 ⊢
      simp
      omega

end

/-- `JSON.parse` is a left inverse of compact `JSON.stringify`. -/
theorem jsonParse_stringify (j : Json) : jsonParse (jsonStringify j) = some j := by
  have h1 : jsonFuel j ≤ 2 * (serJson j).length + 1 :=
    le_trans (jsonFuel_le j) (by omega)
  have h2 := (parseSer_aux (2 * (serJson j).length + 1)).1 j [] h1 notDigitStart_nil
  rw [List.append_nil] at h2
  show (match parseValue (2 * (serJson j).length + 1) (serJson j) with
    | some (v, rest) => if skipWs rest = [] then some v else none
    | none => none) = some j
  rw [h2]
  rfl

/-- A fold that overwrites its accumulator on every match keeps the last
match, that is, the first match of the reversed list. -/
theorem foldl_lastMatch (p : String → Bool) :
    ∀ (l : List String) (acc : Option String),
      l.foldl (fun a t => if p t then some t else a) acc = (l.reverse.find? p).or acc := by
  intro l
  induction l with
  | nil => intro acc; simp
  | cons t ts ih =>
    intro acc
    rw [List.foldl_cons, ih, List.reverse_cons, List.find?_append]
    cases hf : ts.reverse.find? p with
    | some x => simp [Option.or]
    | none =>
      cases hp : p t <;> simp [List.find?, hp, Option.or]

/-- The auto-detection loop computes the first match of the reversed
declaration list (equivalently: the last matching declared name). -/
theorem findTypeInMessage_eq (types : List String) (pc msg : String) :
    findTypeInMessage types pc msg =
      types.reverse.find? (fun t => jsIncludes msg (genTypeTag pc t)) := by
  rw [findTypeInMessage, foldl_lastMatch]
  cases types.reverse.find? (fun t => jsIncludes msg (genTypeTag pc t)) <;> simp [Option.or]

/-- Characterization of a successful factory call: every stored field in
terms of the inputs, and the stored message as the rendered composition. -/
theorem errorFactory_some {reg : Registry} {cwd message : String} {args : List JSVal}
    {frames : List StackFrame} {rawStack : String} {e : Errory}
    (h : errorFactory reg cwd message args frames rawStack = some e) :
    e.type = findTypeInMessage (reg.types.map Prod.fst) reg.opts.typePreceedingChars message ∧
    e.typeIsInMessageString = truthyOpt e.type ∧
    e.stackFrames = frames.drop 2 ∧
    e.args = (spliceTrailingError args).1 ∧
    e.wrappedError = (spliceTrailingError args).2 ∧
    e.msgTemplate = message ∧
    e.context = some [] ∧
    e.name = "Error" ∧
    genMessage reg.opts cwd message (spliceTrailingError args).1 e.type e.typeIsInMessageString
      (frames.drop 2) (spliceTrailingError args).2 0 = some e.message := by
  simp only [errorFactory] at h
  split at h
  · exact absurd h (by simp)
  · next msg heq =>
    obtain rfl := (Option.some.inj h).symm
    exact ⟨rfl, rfl, rfl, rfl, rfl, rfl, rfl, rfl, heq⟩

/-- The getter branch of the `type` method. -/
theorem typeCall_getter (reg : Registry) (cwd : String) (e : Errory) (t : Option String)
    (ctx : Option Ctx) (hcond : (!truthyOpt t && ctx.isNone) = true) :
    typeCall reg cwd e t ctx = some (.got e.type, e) := by
  simp [typeCall, hcond]

/-- The throwing branch of the `type` method. -/
theorem typeCall_thrown (reg : Registry) (cwd : String) (e : Errory) (t : Option String)
    (ctx : Option Ctx) (hcond : (!truthyOpt t && ctx.isNone) = false)
    (hty : truthyOpt e.type = true) :
    typeCall reg cwd e t ctx =
      some (.thrown "cannot call \"type\" method once already set!", e) := by
  simp [typeCall, hcond, hty]

/-- The setter branch of the `type` method. -/
theorem typeCall_eq_set (reg : Registry) (cwd : String) (e : Errory) (t : Option String)
    (ctx : Option Ctx) (hcond : (!truthyOpt t && ctx.isNone) = false)
    (hty : truthyOpt e.type = false) :
    typeCall reg cwd e t ctx =
      match genMessage reg.opts cwd e.msgTemplate e.args t e.typeIsInMessageString
          e.stackFrames e.wrappedError 0 with
      | none => none
      | some msg => some (.ok,
          { e with
            type := t
            context := ctx
            message := msg
            stack := rebuildStack e.stack msg }) := by
  simp [typeCall, hcond, hty]

/-- C1 counterexample: in a registry declaring the categories `""` and
`"A"`, an instance tagged `"A"` accepts a subsequent `type("")` call
without failing — JavaScript truthiness dispatches it to the getter
overload, which returns the current category `"A"`.  This refutes the
claim that a second tag call fails for every category argument. -/
theorem c1_counterexample :
    ((errorFactory regBlankA "" "m" [] [] raw0).bind (fun e0 =>
      (typeCall regBlankA "" e0 (some "A") none).bind (fun r1 =>
        (typeCall regBlankA "" r1.2 (some "") none).map (fun r2 => (r2.1, r2.2.type))))) =
      some (.got (some "A"), some "A") := rfl

/-- C1 (amended): once an instance's category is truthy (set explicitly or
pre-assigned by auto-detection), a subsequent tag call with any non-empty
category name fails synchronously with the "already tagged" error and
leaves the instance unchanged (its category and context are retained); a
call passing an empty name and no context is the getter overload and does
not fail. -/
theorem c1_tag_single_assignment_amended (reg : Registry) (cwd : String) (e : Errory)
    (c2 : String) (ctx : Option Ctx) (hset : truthyOpt e.type = true) (hc2 : c2 ≠ "") :
    typeCall reg cwd e (some c2) ctx =
      some (.thrown "cannot call \"type\" method once already set!", e) := by
  apply typeCall_thrown
  · simp [truthyOpt, hc2]
  · exact hset

/-- C1 witness: a concrete already-tagged instance rejects a second tag. -/
theorem c1_witness :
    typeCall regAB "" taggedA (some "B") none =
      some (.thrown "cannot call \"type\" method once already set!", taggedA) :=
  c1_tag_single_assignment_amended regAB "" taggedA "B" none (by decide) (by decide)

/-- C2 counterexample: for an instance whose assigned category is `"A"`,
`is(candidate, "")` returns `true` although the assigned category does not
equal the given name `""` — the falsy name skips the category comparison.
This refutes the claimed biconditional for every given category name. -/
theorem c2_counterexample :
    erroryIs (toCandidate taggedA) (some "") = true ∧
    taggedA.type = some "A" ∧ ¬(("A" : String) = "") :=
  ⟨rfl, rfl, by decide⟩

/-- C2 (amended): `is(candidate, name?)` returns true iff the candidate's
`__errory` property is exactly the boolean `true` and, whenever a
non-empty category name is given, the candidate's `__errory__type`
property equals it; an empty given name is treated like an absent one.
The function is total, so it never throws, and it only reads the two
properties, so it works for arbitrary error values. -/
theorem c2_is_predicate_amended (error : Candidate) (t : Option String) :
    erroryIs error t = true ↔
      (error.erroryProp = some (.boolean true) ∧
        ∀ s : String, t = some s → s ≠ "" → error.erroryTypeProp = some s) := by
  simp only [erroryIs]
  split
  · next hm =>
    have hm' : error.erroryProp = some (JSVal.boolean true) := eq_of_beq hm
    split
    · next ht =>
      constructor
      · intro hb
        refine ⟨hm', ?_⟩
        intro s hs hsne
        subst hs
        exact eq_of_beq hb
      · rintro ⟨_, hall⟩
        cases t with
        | none => simp [truthyOpt] at ht
        | some s =>
          have hsne : s ≠ "" := by
            intro h0
            subst h0
            simp [truthyOpt] at ht
          simp [hall s rfl hsne]
    · next ht =>
      constructor
      · intro _
        refine ⟨hm', ?_⟩
        intro s hs hsne
        subst hs
        simp [truthyOpt] at ht
        exact absurd ht hsne
      · intro _
        rfl
  · next hm =>
    have hm' : ¬(error.erroryProp = some (JSVal.boolean true)) := by
      intro h0
      exact hm (by simp [h0])
    constructor
    · intro h0
      exact absurd h0 (by simp)
    · rintro ⟨h0, _⟩
      exact absurd h0 hm'

/-- C2 witness: the predicate accepts a this-registry instance with its
own category name. -/
theorem c2_witness : erroryIs (toCandidate taggedA) (some "A") = true :=
  (c2_is_predicate_amended (toCandidate taggedA) (some "A")).mpr
    ⟨rfl, by intro s hs _; cases hs; rfl⟩

/-- C3 (confirmed): when the factory's argument list ends in an error
value, that value — and only that value — is spliced off and stored as the
wrapped cause, the stored positional arguments are exactly the remaining
prefix, and the rendered message is computed from those remaining
arguments (so the trailing error is never a substitution value). -/
theorem c3_cause_extraction (reg : Registry) (cwd tmpl : String) (args : List JSVal)
    (c0 : ErrLike) (frames : List StackFrame) (rawStack : String) (e0 : Errory)
    (h : errorFactory reg cwd tmpl (args ++ [JSVal.err c0]) frames rawStack = some e0) :
    e0.wrappedError = some c0 ∧ e0.args = args ∧
    genMessage reg.opts cwd tmpl args e0.type e0.typeIsInMessageString e0.stackFrames
      (some c0) 0 = some e0.message := by
  obtain ⟨hty, hflag, hsf, hargs, hwrap, htmpl, hctx, hname, hmsg⟩ := errorFactory_some h
  have hsp : spliceTrailingError (args ++ [JSVal.err c0]) = (args, some c0) := by
    simp [spliceTrailingError, List.getLast?_concat, List.dropLast_concat]
  rw [hsp] at hargs hwrap hmsg
  rw [hsf]
  exact ⟨hwrap, hargs, hmsg⟩

/-- C3 witness: the concrete example of the claim — `error("msg %s", "x",
cause)` wraps the cause, keeps `"x"` as the only argument, and formats the
template to `"msg x"`. -/
theorem c3_witness :
    ((errorFactory regAB "" "msg %s" [JSVal.str "x", JSVal.err cause0] [] raw0).map
      (fun e => (e.wrappedError, e.args))) = some (some cause0, [JSVal.str "x"]) ∧
    genMessageStr "msg %s" [JSVal.str "x"] = "msg x" := by
  constructor
  · cases heq : errorFactory regAB "" "msg %s" [JSVal.str "x", JSVal.err cause0] [] raw0 with
    | none =>
      have hch : (errorFactory regAB "" "msg %s" [JSVal.str "x", JSVal.err cause0] [] raw0).map
          (fun e => (e.wrappedError, e.args)) = some (some cause0, [JSVal.str "x"]) := rfl
      rw [heq] at hch
      simp at hch
    | some e0 =>
      obtain ⟨h1, h2, _⟩ := c3_cause_extraction regAB "" "msg %s" [JSVal.str "x"] cause0 [] raw0 e0 heq
      simp [h1, h2]
  · rfl

/-- C4 counterexample: the registry built from the empty definitions
mapping stores no categories at all — in particular no implicit catch-all
category named "unknown" (or of any other name) is merged in.  This
refutes the claim that a catch-all is always present. -/
theorem c4_counterexample :
    (buildError ([] : ErrorTypesDefinition) {}).types = [] ∧
    List.lookup "unknown" (buildError ([] : ErrorTypesDefinition) {}).types = none :=
  ⟨rfl, rfl⟩

/-- C4 (amended): registry construction stores exactly the caller-supplied
category names, each merged over the default config (a missing context
schema becomes the empty schema, a supplied one is kept verbatim); no
implicit catch-all category is added.  (The catch-all merge exists only in
the superseded alternate version of the source, not in `src/index.ts`.) -/
theorem c4_registry_definitions_amended (etds : ErrorTypesDefinition) (o : Options) :
    (buildError etds o).types.map Prod.fst = etds.map Prod.fst ∧
    ∀ n : String, List.lookup n (buildError etds o).types =
      (List.lookup n etds).map (fun c => c.context.getD []) := by
  constructor
  · simp [buildError, setupErrorTypes]
  · intro n
    induction etds with
    | nil => rfl
    | cons kv tail ih =>
      obtain ⟨k, cfg⟩ := kv
      by_cases hnk : (n == k) = true
      · simp [buildError, setupErrorTypes, List.lookup, hnk]
      · have hnk' : (n == k) = false := by
          cases hx : n == k
          · rfl
          · exact absurd hx hnk
        simp only [buildError, setupErrorTypes] at ih ⊢
        simp [List.lookup, hnk', List.map_cons] at ih ⊢
        exact ih

/-- C5 counterexample: the name "Nope" is not declared in the registry,
yet the tag call succeeds and stores it — no `UnknownCategoryError` is
raised at runtime.  This refutes the claimed runtime rejection. -/
theorem c5_counterexample :
    ((errorFactory regEmptyA "" "m" [] [] raw0).bind (fun e0 =>
      (typeCall regEmptyA "" e0 (some "Nope") none).map (fun r => (r.1, r.2.type)))) =
      some (.ok, some "Nope") ∧
    List.lookup "Nope" regEmptyA.types = none :=
  ⟨rfl, rfl⟩

/-- C5 (amended): the tag operation performs no runtime validation of the
category name against the registry's declared set — any non-empty name,
declared or not, is stored as the instance's category and the call
succeeds (rejection of undeclared names is left entirely to the static
type system).  Note the absence of any hypothesis tying `c` to
`reg.types`. -/
theorem c5_tag_no_runtime_validation (reg : Registry) (cwd : String) (e : Errory)
    (c : String) (ctx : Option Ctx) (m : String)
    (huntagged : truthyOpt e.type = false) (hc : c ≠ "")
    (hmsg : genMessage reg.opts cwd e.msgTemplate e.args (some c) e.typeIsInMessageString
      e.stackFrames e.wrappedError 0 = some m) :
    typeCall reg cwd e (some c) ctx = some (.ok,
      { e with
        type := some c
        context := ctx
        message := m
        stack := rebuildStack e.stack m }) := by
  rw [typeCall_eq_set _ _ _ _ _ (by simp [truthyOpt, hc]) huntagged, hmsg]

/-- C5 witness: tagging a concrete untagged instance with the undeclared
name "Nope" succeeds and stores the name. -/
theorem c5_witness :
    List.lookup "Nope" regEmptyA.types = none ∧
    typeCall regEmptyA "" untaggedE (some "Nope") none = some (.ok,
      { untaggedE with
        type := some "Nope"
        context := none
        message := "m"
        stack := rebuildStack untaggedE.stack "m" }) := by
  refine ⟨rfl, ?_⟩
  exact c5_tag_no_runtime_validation regEmptyA "" untaggedE "Nope" none "m"
    (by decide) (by decide) rfl

/-- A tag call that returns the chaining result ran the setter branch: the
instance was untagged, and the returned instance stores the new type and
context with the re-rendered message and rebuilt stack. -/
theorem typeCall_ok {reg : Registry} {cwd : String} {e : Errory} {t : Option String}
    {ctx : Option Ctx} {e1 : Errory} (h : typeCall reg cwd e t ctx = some (.ok, e1)) :
    truthyOpt e.type = false ∧
    ∃ msg, genMessage reg.opts cwd e.msgTemplate e.args t e.typeIsInMessageString
        e.stackFrames e.wrappedError 0 = some msg ∧
      e1 = { e with
        type := t
        context := ctx
        message := msg
        stack := rebuildStack e.stack msg } := by
  by_cases hcond : (!truthyOpt t && ctx.isNone) = true
  · rw [typeCall_getter _ _ _ _ _ hcond] at h
    simp at h
  · have hcond' : (!truthyOpt t && ctx.isNone) = false := by
      cases hx : (!truthyOpt t && ctx.isNone)
      · rfl
      · exact absurd hx hcond
    by_cases htr : truthyOpt e.type = true
    · rw [typeCall_thrown _ _ _ _ _ hcond' htr] at h
      simp at h
    · have htr' : truthyOpt e.type = false := by
        cases hx : truthyOpt e.type
        · rfl
        · exact absurd hx htr
      rw [typeCall_eq_set _ _ _ _ _ hcond' htr'] at h
      refine ⟨htr', ?_⟩
      split at h
      · exact absurd h (by simp)
      · next msg heq =>
        obtain ⟨-, h2⟩ := Prod.mk.injEq _ _ _ _ |>.mp (Option.some.inj h)
        exact ⟨msg, heq, h2.symm⟩

/-- C6 (confirmed): with the type, location and wrapped-cause fragments
all enabled, the rendered message of a tagged instance with a plain cause
is the concatenation, in this fixed order, of the formatted template, the
category-tag fragment, the location fragment, and `": "` followed by the
cause's string form; and the category-tag fragment appears only when the
category was not auto-detected from the template (part two: for an
auto-detected instance it is omitted). -/
theorem c6_message_composition :
    (∀ (reg : Registry) (cwd tmpl rawStack : String) (args : List JSVal)
      (frames : List StackFrame) (c0 : ErrLike) (t : Option String) (ctx : Option Ctx)
      (e0 e1 : Errory) (locStr : String),
      reg.opts.typeInMessage = true →
      reg.opts.locationInMessage = true →
      reg.opts.wrappedErrorInMessage = true →
      errorFactory reg cwd tmpl args frames rawStack = some e0 →
      e0.wrappedError = some c0 →
      c0.erroryMark = false →
      genLocationErrorStr true e0.stackFrames reg.opts.locationAsRelativePath cwd = some locStr →
      typeCall reg cwd e0 t ctx = some (.ok, e1) →
      e1.message = genMessageStr tmpl e0.args ++
        genTypeStr true reg.opts.typePreceedingChars t ++ locStr ++ ": " ++ c0.toStr) ∧
    (∀ (reg : Registry) (cwd tmpl rawStack : String) (args : List JSVal)
      (frames : List StackFrame) (c0 : ErrLike) (e0 : Errory) (locStr : String),
      reg.opts.typeInMessage = true →
      reg.opts.locationInMessage = true →
      reg.opts.wrappedErrorInMessage = true →
      errorFactory reg cwd tmpl args frames rawStack = some e0 →
      truthyOpt e0.type = true →
      e0.wrappedError = some c0 →
      c0.erroryMark = false →
      genLocationErrorStr true e0.stackFrames reg.opts.locationAsRelativePath cwd = some locStr →
      e0.message = genMessageStr tmpl e0.args ++ locStr ++ ": " ++ c0.toStr) := by
  constructor
  · intro reg cwd tmpl rawStack args frames c0 t ctx e0 e1 locStr hti hli hwi hfac hw hmark
      hloc htc
    obtain ⟨hty, hflag, hsf, hargs, hwrap, htmpl, -, -, -⟩ := errorFactory_some hfac
    obtain ⟨htr', msg, hgen, rfl⟩ := typeCall_ok htc
    have hflag0 : e0.typeIsInMessageString = false := by rw [hflag]; exact htr'
    have hloc' : genLocationErrorStr reg.opts.locationInMessage e0.stackFrames
        reg.opts.locationAsRelativePath cwd = some locStr := by rw [hli]; exact hloc
    rw [htmpl, hflag0, hw] at hgen
    simp only [genMessage] at hgen
    rw [hloc'] at hgen
    simp only [Option.some.injEq] at hgen
    show msg = _
    rw [← hgen]
    simp [hti, hwi, genWrappedErrorStr, hmark, String.append_assoc]
  · intro reg cwd tmpl rawStack args frames c0 e0 locStr hti hli hwi hfac htr hw hmark hloc
    obtain ⟨hty, hflag, hsf, hargs, hwrap, htmpl, -, -, hmsg⟩ := errorFactory_some hfac
    have hflag1 : e0.typeIsInMessageString = true := by rw [hflag]; exact htr
    have hloc' : genLocationErrorStr reg.opts.locationInMessage e0.stackFrames
        reg.opts.locationAsRelativePath cwd = some locStr := by rw [hli]; exact hloc
    rw [← hsf] at hmsg
    rw [← hargs, ← hwrap] at hmsg
    rw [hw, hflag1] at hmsg
    simp only [genMessage] at hmsg
    rw [hloc'] at hmsg
    simp only [Option.some.injEq] at hmsg
    rw [← hmsg]
    simp [genTypeStr, hwi, genWrappedErrorStr, hmark, String.append_assoc]

/-- C6 witness: both composition scenarios at concrete inputs — an
explicitly tagged instance includes the tag fragment, an auto-detected one
omits it. -/
theorem c6_witness :
    c6e1.message = genMessageStr "boom %s" c6e0.args ++
      genTypeStr true regC6.opts.typePreceedingChars (some "A") ++ "  (g.ts:4:5)" ++ ": " ++
      cause0.toStr ∧
    c6e2.message = genMessageStr "boom --A" c6e2.args ++ "  (g.ts:4:5)" ++ ": " ++
      cause0.toStr := by
  constructor
  · exact c6_message_composition.1 regC6 "" "boom %s" raw0 [JSVal.str "z", JSVal.err cause0]
      framesW cause0 (some "A") none c6e0 c6e1 "  (g.ts:4:5)" rfl rfl rfl rfl rfl rfl rfl rfl
  · exact c6_message_composition.2 regC6 "" "boom --A" raw0 [JSVal.err cause0] framesW cause0
      c6e2 "  (g.ts:4:5)" rfl rfl rfl rfl rfl rfl rfl rfl

/-- C7 counterexample: an instance tagged without a context argument has
an undefined context property, so `JSON.stringify` omits the `context` key
— the parsed JSON object has no `context` field although the instance is
tagged (its `type` field parses back as `"A"`).  This refutes the claim
that the JSON object always carries a `context` field. -/
theorem c7_counterexample :
    ((errorFactory regEmptyA "" "m" [] [] raw0).bind (fun e0 =>
      (typeCall regEmptyA "" e0 (some "A") none).map (fun r => r.2))).bind
      (fun e1 => (jsonParse (toJSON e1)).bind (fun j => jGet j "context")) = none ∧
    ((errorFactory regEmptyA "" "m" [] [] raw0).bind (fun e0 =>
      (typeCall regEmptyA "" e0 (some "A") none).map (fun r => r.2))).bind
      (fun e1 => (jsonParse (toJSON e1)).bind (fun j => jGet j "type")) =
      some (.jstr "A") := ⟨rfl, rfl⟩

/-- C7 (amended): for every instance tagged with a category and carrying a
context object, parsing the string produced by `toJSON()` yields exactly
the serialized object; its `type` field equals the category returned by
the no-argument getter, its `context` field is the JSON image of the
instance's context, and the `name`, `message` and `stack` (structured
frames) fields are all present.  When the instance was tagged without a
context argument the `context` key is omitted (see the counterexample). -/
theorem c7_serialization_roundtrip_amended (e : Errory) (t : String) (c : Ctx)
    (h1 : e.type = some t) (h2 : e.context = some c) :
    jsonParse (toJSON e) = some (erroryJson e) ∧
    jGet (erroryJson e) "name" = some (.jstr e.name) ∧
    jGet (erroryJson e) "type" = some (.jstr t) ∧
    jGet (erroryJson e) "message" = some (.jstr e.message) ∧
    jGet (erroryJson e) "context" = some (ctxToJson c) ∧
    jGet (erroryJson e) "stack" = some (.jarr (e.stackFrames.map frameToJson)) ∧
    (∀ (reg : Registry) (cwd : String), typeCall reg cwd e none none = some (.got (some t), e)) := by
  refine ⟨jsonParse_stringify _, ?_, ?_, ?_, ?_, ?_, ?_⟩
  · simp only [erroryJson, h1, h2]
    rfl
  · simp only [erroryJson, h1, h2]
    rfl
  · simp only [erroryJson, h1, h2]
    rfl
  · simp only [erroryJson, h1, h2]
    rfl
  · simp only [erroryJson, h1, h2]
    rfl
  · intro reg cwd
    rw [typeCall_getter reg cwd e none none (by rfl), h1]

/-- C7 witness: the round trip at a concrete tagged instance with a
context payload. -/
theorem c7_witness :
    jsonParse (toJSON c7e) = some (erroryJson c7e) ∧
    jGet (erroryJson c7e) "type" = some (.jstr "A") ∧
    jGet (erroryJson c7e) "context" = some (ctxToJson [("x", CtxVal.cnum 1)]) := by
  have h := c7_serialization_roundtrip_amended c7e "A" [("x", CtxVal.cnum 1)] rfl rfl
  exact ⟨h.1, h.2.2.1, h.2.2.2.2.1⟩

/-- C8 counterexample: with categories declared in order `A`, `B` and a
template containing both tags, the pre-assigned category is `B` — the last
matching name — not the first matching name `A` the claim requires. -/
theorem c8_counterexample :
    (errorFactory regAB "" "x --A --B" [] [] raw0).map (fun e => e.type) = some (some "B") ∧
    ¬((some "B" : Option String) = some "A") := ⟨rfl, by decide⟩

/-- C8 (amended): during construction the template is scanned for every
category's rendered tag, and the pre-assigned category is the last
matching name in the registry's iteration (declaration) order — the first
match of the reversed list; the internal flag records whether a (truthy)
name was detected, and when it is set the renderer's category-tag fragment
is empty, so the tag is not appended a second time. -/
theorem c8_autodetect_last_match (reg : Registry) (cwd msg : String) (args : List JSVal)
    (frames : List StackFrame) (rawStack : String) (e0 : Errory)
    (h : errorFactory reg cwd msg args frames rawStack = some e0) :
    e0.type = (reg.types.map Prod.fst).reverse.find?
      (fun t => jsIncludes msg (genTypeTag reg.opts.typePreceedingChars t)) ∧
    e0.typeIsInMessageString = truthyOpt e0.type ∧
    (e0.typeIsInMessageString = true →
      ∀ (b : Bool) (pc : String), genTypeStr (!e0.typeIsInMessageString && b) pc e0.type = "") := by
  obtain ⟨hty, hflag, -⟩ := errorFactory_some h
  refine ⟨by rw [hty, findTypeInMessage_eq], hflag, ?_⟩
  intro hf b pc
  rw [hf]
  rfl

/-- C8 witness: the last-match rule and flag at a concrete template
containing two tags. -/
theorem c8_witness :
    (errorFactory regAB "" "x --A --B" [] [] raw0).map
      (fun e => (e.type, e.typeIsInMessageString)) = some (some "B", true) := by
  cases heq : errorFactory regAB "" "x --A --B" [] [] raw0 with
  | none =>
    have hch : (errorFactory regAB "" "x --A --B" [] [] raw0).map
        (fun e => (e.type, e.typeIsInMessageString)) = some (some "B", true) := rfl
    rw [heq] at hch
    simp at hch
  | some e0 =>
    obtain ⟨h1, h2, -⟩ := c8_autodetect_last_match regAB "" "x --A --B" [] [] raw0 e0 heq
    have h1' : e0.type = some "B" := by rw [h1]; rfl
    show some (e0.type, e0.typeIsInMessageString) = some (some "B", true)
    rw [h1', h2, h1']
    rfl

/-- C9 counterexample: wrapping a plain error whose message contains the
tag substring `--A` pre-assigns the category `A` — auto-detection runs on
the wrapped message, contradicting the claim that the category starts
unset for the wrap-an-error overload. -/
theorem c9_counterexample :
    (errorConstructor regEmptyA "" (.error ⟨"boom --A", "Error: boom --A", false⟩) [] [] raw0).map
      (fun e => e.type) = some (some "A") ∧
    ¬((some "A" : Option String) = (none : Option String)) := ⟨rfl, by decide⟩

/-- C9 (amended): for the wrap-an-error overload the template becomes the
wrapped error's message and the positional argument list is empty (so no
cause is extracted), but category auto-detection still runs on that
message: the pre-assigned category is the last declared name whose tag
occurs in the wrapped error's message text. -/
theorem c9_wrap_overload_amended (reg : Registry) (cwd : String) (err0 : ErrLike)
    (args : List JSVal) (frames : List StackFrame) (rawStack : String) :
    errorConstructor reg cwd (.error err0) args frames rawStack =
      errorFactory reg cwd err0.message [] frames rawStack ∧
    ∀ e0 : Errory, errorConstructor reg cwd (.error err0) args frames rawStack = some e0 →
      e0.msgTemplate = err0.message ∧ e0.args = [] ∧ e0.wrappedError = none ∧
      e0.type = (reg.types.map Prod.fst).reverse.find?
        (fun t => jsIncludes err0.message (genTypeTag reg.opts.typePreceedingChars t)) := by
  refine ⟨rfl, ?_⟩
  intro e0 h
  obtain ⟨hty, -, -, hargs, hwrap, htmpl, -⟩ :=
    errorFactory_some (h : errorFactory reg cwd err0.message [] frames rawStack = some e0)
  refine ⟨htmpl, ?_, ?_, by rw [hty, findTypeInMessage_eq]⟩
  · rw [hargs]
    rfl
  · rw [hwrap]
    rfl

/-- C9 witness: wrapping a concrete plain error uses its message as the
template with no arguments and no stored cause. -/
theorem c9_witness :
    (errorConstructor regEmptyA "" (.error ⟨"boom", "Error: boom", false⟩) [JSVal.str "ignored"]
      [] raw0).map (fun e => (e.msgTemplate, e.args, e.wrappedError)) =
      some ("boom", [], none) := by
  cases heq : errorConstructor regEmptyA "" (.error ⟨"boom", "Error: boom", false⟩)
      [JSVal.str "ignored"] [] raw0 with
  | none =>
    have hch : (errorConstructor regEmptyA "" (.error ⟨"boom", "Error: boom", false⟩)
        [JSVal.str "ignored"] [] raw0).map (fun e => (e.msgTemplate, e.args, e.wrappedError)) =
        some ("boom", [], none) := rfl
    rw [heq] at hch
    simp at hch
  | some e0 =>
    obtain ⟨-, hall⟩ := c9_wrap_overload_amended regEmptyA "" ⟨"boom", "Error: boom", false⟩
      [JSVal.str "ignored"] [] raw0
    obtain ⟨ha, hb, hc, -⟩ := hall e0 heq
    show some (e0.msgTemplate, e0.args, e0.wrappedError) = _
    rw [ha, hb, hc]

/-- C10 counterexample: the registry declares category `A` with an empty
context schema, yet tagging with the context `{x: 1}` stores the key `x`,
which is not declared in the schema — the context keys are not a subset of
the schema keys and nothing was rejected.  This refutes the claimed
runtime subset invariant. -/
theorem c10_counterexample :
    ((errorFactory regEmptyA "" "m" [] [] raw0).bind (fun e0 =>
      (typeCall regEmptyA "" e0 (some "A") (some [("x", CtxVal.cnum 1)])).map
        (fun r => r.2.context))) = some (some [("x", CtxVal.cnum 1)]) ∧
    List.lookup "A" regEmptyA.types = some [] ∧
    List.lookup "x" ([] : ContextShape) = none := ⟨rfl, rfl, rfl⟩

/-- C10 (amended): the tag operation stores the supplied context mapping
verbatim — no entry is rejected or filtered against the category's
declared schema, so context keys need not be a subset of the schema keys;
schema conformance is enforced only by the static type system.  Note the
absence of any hypothesis relating `ctx` to the schema declared for `c`. -/
theorem c10_context_stored_verbatim (reg : Registry) (cwd : String) (e : Errory)
    (c : String) (ctx : Ctx) (m : String)
    (huntagged : truthyOpt e.type = false) (hc : c ≠ "")
    (hmsg : genMessage reg.opts cwd e.msgTemplate e.args (some c) e.typeIsInMessageString
      e.stackFrames e.wrappedError 0 = some m) :
    (typeCall reg cwd e (some c) (some ctx)).map (fun r => (r.1, r.2.context)) =
      some (.ok, some ctx) := by
  rw [typeCall_eq_set _ _ _ _ _ (by simp) huntagged, hmsg]
  rfl

/-- C10 witness: a concrete tag call stores a context whose key is outside
the category's (empty) declared schema. -/
theorem c10_witness :
    (typeCall regEmptyA "" untaggedE (some "A") (some [("x", CtxVal.cnum 1)])).map
      (fun r => (r.1, r.2.context)) = some (.ok, some [("x", CtxVal.cnum 1)]) ∧
    List.lookup "A" regEmptyA.types = some [] := by
  refine ⟨?_, rfl⟩
  exact c10_context_stored_verbatim regEmptyA "" untaggedE "A" [("x", CtxVal.cnum 1)] "m"
    (by decide) (by decide) rfl
